import Mathlib

/-!
Shallow embedding of the IPTV channel API handlers
(`src/api/channels.js`, `src/api/search.js`, `src/api/categories.js`,
and the strict search handler in `src/unnamed/part_000`)
together with proofs about the filter / join / pagination pipeline.

JavaScript-specific behaviours that matter to the handlers are modelled
explicitly: string truthiness (`if (param)`), `parseInt` returning `NaN`
on non-numeric input (modelled as `Option Int` with `none` for `NaN`),
and `Array.prototype.slice` index clamping (with `NaN` coerced to `0`).
-/

namespace IPTV

/-! ## JavaScript primitive semantics -/

/-- JS string truthiness of an optional query parameter:
`undefined` and the empty string are falsy. -/
def strTruthy : Option String → Bool
  | none => false
  | some s => !s.isEmpty

/-- JS falsiness of an optional string field (`!logo.feed`):
`undefined`, `null` and `""` are falsy. -/
def jsFalsyStr : Option String → Bool
  | none => true
  | some s => s.isEmpty

/-- Value of a numeric fold of decimal digit characters. -/
def digitsVal (cs : List Char) : Nat :=
  cs.foldl (fun a c => a * 10 + (c.toNat - 48)) 0

/-- JS `parseInt` on a string (decimal): skip leading whitespace, read an
optional sign and then a maximal run of decimal digits; if that run is
empty the result is `NaN`, modelled as `none`. -/
def parseIntJS (s : String) : Option Int :=
  let cs := s.toList.dropWhile Char.isWhitespace
  match cs with
  | '-' :: rest =>
      let ds := rest.takeWhile Char.isDigit
      if ds.isEmpty then none else some (-(digitsVal ds : Int))
  | '+' :: rest =>
      let ds := rest.takeWhile Char.isDigit
      if ds.isEmpty then none else some (digitsVal ds)
  | _ =>
      let ds := cs.takeWhile Char.isDigit
      if ds.isEmpty then none else some (digitsVal ds)

/-- `ToIntegerOrInfinity` on a possibly-`NaN` number: `NaN` becomes `0`. -/
def toIntOrZero : Option Int → Int
  | none => 0
  | some i => i

/-- Addition where `NaN` (modelled `none`) is absorbing, as in JS. -/
def optAdd : Option Int → Option Int → Option Int
  | some a, some b => some (a + b)
  | _, _ => none

/-- JS `<` against a length: any comparison with `NaN` is `false`. -/
def optLtNat : Option Int → Nat → Bool
  | none, _ => false
  | some a, t => a < (t : Int)

/-- Clamp a relative slice index into `[0, len]` as JS `slice` does:
negative indices count from the end (clamped at `0`), non-negative ones
are clamped at `len`. -/
def clampIdx (len : Nat) (i : Int) : Nat :=
  if i < 0 then ((len : Int) + i).toNat else min i.toNat len

/-- JS `Array.prototype.slice(start, end)` on integer arguments. -/
def jsSlice (l : List α) (start fin : Int) : List α :=
  (l.take (clampIdx l.length fin)).drop (clampIdx l.length start)

/-- List-level substring check used to model JS `String.includes`:
`needle` occurs contiguously inside `hay`. -/
def isPrefixL : List Char → List Char → Bool
  | [], _ => true
  | _ :: _, [] => false
  | a :: as, b :: bs => a == b && isPrefixL as bs

/-- Check whether `n` is a contiguous infix of the second list. -/
def isInfixL (n : List Char) : List Char → Bool
  | [] => isPrefixL n []
  | c :: t => isPrefixL n (c :: t) || isInfixL n t

/-- JS `hay.includes(needle)`. -/
def strIncludes (hay needle : String) : Bool :=
  isInfixL needle.toList hay.toList

/-- JS `String.prototype.toUpperCase`, char by char. -/
def toUpperS (s : String) : String :=
  String.mk (s.toList.map Char.toUpper)

/-- JS `String.prototype.toLowerCase`, char by char. -/
def toLowerS (s : String) : String :=
  String.mk (s.toList.map Char.toLower)

/-! ## Data model (iptv-org dataset rows, spec section 3) -/

/-- A channel row of `channels.json`. -/
structure Channel where
  id : String
  name : String
  alt_names : List String
  country : Option String
  categories : List String
  network : Option String
  owners : List String
  website : Option String
  is_nsfw : Bool
  launched : Option String
  closed : Option String
  replaced_by : Option String
deriving DecidableEq

/-- A stream row of `streams.json`. -/
structure Stream where
  channel : Option String
  feed : Option String
  url : String
  quality : Option String
  title : Option String
  referrer : Option String
  user_agent : Option String
deriving DecidableEq

/-- A logo row of `logos.json`. -/
structure Logo where
  channel : Option String
  feed : Option String
  url : String
  width : Nat
  height : Nat
  format : Option String
  tags : List String
deriving DecidableEq

/-- A country row of `countries.json`. -/
structure Country where
  code : String
  name : String
  flag : String
  languages : List String
deriving DecidableEq

/-! ## Enrichment shared by `src/api/channels.js` and `src/unnamed/part_000`

Both handlers build the same enriched channel object (the code of the
join step is identical in the two files), so one embedding serves both. -/

/-- Projected stream in the enriched output
(`{url, quality, title, referrer}`). -/
structure StreamOut where
  url : String
  quality : Option String
  title : Option String
  referrer : Option String
deriving DecidableEq

/-- Enriched channel object returned by `channels.js` and `part_000`. -/
structure EnrichedChannel where
  id : String
  name : String
  alt_names : List String
  country : Option String
  country_name : Option String
  country_flag : Option String
  categories : List String
  network : Option String
  website : Option String
  is_nsfw : Bool
  logo : Option String
  streams : List StreamOut
deriving DecidableEq

/-- Stream projection `stream => ({url, quality, title, referrer})`. -/
def mkStreamOut (s : Stream) : StreamOut :=
  ⟨s.url, s.quality, s.title, s.referrer⟩

/-- Predicate of the stream join:
`stream.channel === channel.id || stream.feed === channel.id`. -/
def streamMatches (cid : String) (s : Stream) : Bool :=
  s.channel == some cid || s.feed == some cid

/-- Predicate of a logo row matching a channel id
(`logo.channel === channel.id`). -/
def logoMatches (cid : String) (l : Logo) : Bool :=
  l.channel == some cid

/-- Logo choice:
`logos.find(l => l.channel === id && !l.feed) || logos.find(l => l.channel === id)`. -/
def findLogo (logos : List Logo) (cid : String) : Option Logo :=
  match logos.find? (fun l => logoMatches cid l && jsFalsyStr l.feed) with
  | some l => some l
  | none => logos.find? (logoMatches cid)

/-- The join/enrichment step of `channels.js` (lines 35-67) and
`part_000` (lines 63-92): attach matching streams, the chosen logo's url,
and country metadata found by `c.code === channel.country`. -/
def enrichChannel (streams : List Stream) (logos : List Logo)
    (countries : List Country) (c : Channel) : EnrichedChannel :=
  let channelStreams := streams.filter (streamMatches c.id)
  let channelLogo := findLogo logos c.id
  let countryInfo := countries.find? (fun k => c.country == some k.code)
  { id := c.id
    name := c.name
    alt_names := c.alt_names
    country := c.country
    country_name := countryInfo.map Country.name
    country_flag := countryInfo.map Country.flag
    categories := c.categories
    network := c.network
    website := c.website
    is_nsfw := c.is_nsfw
    logo := channelLogo.map Logo.url
    streams := channelStreams.map mkStreamOut }

/-! ## `src/api/channels.js`: the `/channels` handler -/

/-- Query parameters of `/channels`. -/
structure ChQuery where
  country : Option String
  search : Option String
  category : Option String
  limit : Option String
deriving DecidableEq

/-- Country filter of `channels.js`:
`channel.country === country.toUpperCase()`, applied only when the
`country` parameter is truthy. -/
def chCountryFilter (p : Option String) (l : List EnrichedChannel) :
    List EnrichedChannel :=
  if strTruthy p then
    l.filter (fun e => e.country == some (toUpperS (p.getD "")))
  else l

/-- Text-search filter of `channels.js`: case-insensitive substring match
on `name` or any of `alt_names`, applied only when `search` is truthy. -/
def chSearchFilter (p : Option String) (l : List EnrichedChannel) :
    List EnrichedChannel :=
  if strTruthy p then
    let searchLower := toLowerS (p.getD "")
    l.filter (fun e =>
      strIncludes (toLowerS e.name) searchLower ||
      e.alt_names.any (fun a => strIncludes (toLowerS a) searchLower))
  else l

/-- Category filter of `channels.js`:
`channel.categories.includes(category.toLowerCase())`. -/
def chCategoryFilter (p : Option String) (l : List EnrichedChannel) :
    List EnrichedChannel :=
  if strTruthy p then
    l.filter (fun e => e.categories.contains (toLowerS (p.getD "")))
  else l

/-- The filter stage of `channels.js` applied to the enriched channels. -/
def chFiltered (q : ChQuery) (channels : List Channel) (streams : List Stream)
    (logos : List Logo) (countries : List Country) : List EnrichedChannel :=
  let enriched := channels.map (enrichChannel streams logos countries)
  chCategoryFilter q.category (chSearchFilter q.search
    (chCountryFilter q.country enriched))

/-- Parsed `limit` of `channels.js`: destructuring default `50` when the
parameter is absent, otherwise `parseInt` (possibly `NaN`). -/
def chParsedLimit (q : ChQuery) : Option Int :=
  match q.limit with
  | none => some 50
  | some s => parseIntJS s

/-- Response body of `/channels` (`{success, data, total}`). -/
structure ChResp where
  success : Bool
  data : List EnrichedChannel
  total : Nat
deriving DecidableEq

/-- The `/channels` handler: enrich, filter, `slice(0, parseInt(limit))`,
and report `total` as the length of the sliced list. -/
def channelsHandler (q : ChQuery) (channels : List Channel)
    (streams : List Stream) (logos : List Logo) (countries : List Country) :
    ChResp :=
  let filtered := chFiltered q channels streams logos countries
  let final := jsSlice filtered 0 (toIntOrZero (chParsedLimit q))
  { success := true, data := final, total := final.length }

/-! ## `src/unnamed/part_000`: the strict `/search` handler -/

/-- Query parameters of the strict search endpoint. -/
structure StrictQuery where
  q : Option String
  country : Option String
  category : Option String
  limit : Option String
deriving DecidableEq

/-- Response of the strict search endpoint, with its HTTP status. -/
structure StrictResp where
  status : Nat
  success : Bool
  error : Option String
  query : Option String
  data : List EnrichedChannel
  total : Nat
deriving DecidableEq

/-- Text match of the strict search:
`name.toLowerCase().includes(term) || alt_names.some(...)`. -/
def strictTextMatches (term : String) (c : Channel) : Bool :=
  strIncludes (toLowerS c.name) term ||
  c.alt_names.any (fun a => strIncludes (toLowerS a) term)

/-- Country filter of `part_000` (lines 50-53), over raw channels:
`channel.country === country.toUpperCase()`. -/
def strictCountryFilter (p : Option String) (l : List Channel) :
    List Channel :=
  if strTruthy p then
    l.filter (fun c => c.country == some (toUpperS (p.getD "")))
  else l

/-- Category filter of `part_000`:
`channel.categories.includes(category.toLowerCase())`. -/
def strictCategoryFilter (p : Option String) (l : List Channel) :
    List Channel :=
  if strTruthy p then
    l.filter (fun c => c.categories.contains (toLowerS (p.getD "")))
  else l

/-- Parsed `limit` of `part_000`: destructuring default `20`. -/
def strictParsedLimit (q : StrictQuery) : Option Int :=
  match q.limit with
  | none => some 20
  | some s => parseIntJS s

/-- The fixed HTTP 400 response of the strict search endpoint. -/
def strictBadRequest : StrictResp :=
  { status := 400, success := false,
    error := some "Search query (q) is required",
    query := none, data := [], total := 0 }

/-- The strict `/search` handler of `part_000`: `if (!q)` return 400
before any data is fetched; otherwise filter raw channels by text,
country and category, `slice(0, parseInt(limit))`, enrich the slice, and
report `total` as the length of the enriched (post-truncation) list. -/
def searchHandler (query : StrictQuery) (channels : List Channel)
    (streams : List Stream) (logos : List Logo) (countries : List Country) :
    StrictResp :=
  if !strTruthy query.q then strictBadRequest
  else
    let term := toLowerS (query.q.getD "")
    let results := channels.filter (strictTextMatches term)
    let results := strictCountryFilter query.country results
    let results := strictCategoryFilter query.category results
    let enriched :=
      (jsSlice results 0 (toIntOrZero (strictParsedLimit query))).map
        (enrichChannel streams logos countries)
    { status := 200, success := true, error := none, query := query.q,
      data := enriched, total := enriched.length }

/-! ## `src/api/search.js`: the advanced `/search` handler -/

/-- Projected stream in the advanced search output. -/
structure AdvStreamOut where
  title : Option String
  url : String
  quality : Option String
  referrer : Option String
  userAgent : Option String
  feed : Option String
deriving DecidableEq

/-- Projected logo in the advanced search output. -/
structure AdvLogoOut where
  url : String
  width : Nat
  height : Nat
  format : Option String
  tags : List String
  feed : Option String
deriving DecidableEq

/-- Result object built by the advanced search map over channels. -/
structure AdvChannel where
  id : String
  name : String
  alternativeNames : List String
  network : Option String
  owners : List String
  country : Option String
  categories : List String
  isNsfw : Bool
  launched : Option String
  closed : Option String
  replacedBy : Option String
  website : Option String
  streamCount : Nat
  logoCount : Nat
  streams : List AdvStreamOut
  logos : List AdvLogoOut
deriving DecidableEq

/-- Stream projection of the advanced search output. -/
def mkAdvStreamOut (s : Stream) : AdvStreamOut :=
  ⟨s.title, s.url, s.quality, s.referrer, s.user_agent, s.feed⟩

/-- Logo projection of the advanced search output. -/
def mkAdvLogoOut (l : Logo) : AdvLogoOut :=
  ⟨l.url, l.width, l.height, l.format, l.tags, l.feed⟩

/-- The map step of `search.js` (lines 30-63): join streams by
`s.channel === channel.id` only (no feed key), logos by
`l.channel === channel.id`. -/
def advEnrichChannel (streams : List Stream) (logos : List Logo)
    (c : Channel) : AdvChannel :=
  let channelStreams := streams.filter (fun s => s.channel == some c.id)
  let channelLogos := logos.filter (logoMatches c.id)
  { id := c.id
    name := c.name
    alternativeNames := c.alt_names
    network := c.network
    owners := c.owners
    country := c.country
    categories := c.categories
    isNsfw := c.is_nsfw
    launched := c.launched
    closed := c.closed
    replacedBy := c.replaced_by
    website := c.website
    streamCount := channelStreams.length
    logoCount := channelLogos.length
    streams := channelStreams.map mkAdvStreamOut
    logos := channelLogos.map mkAdvLogoOut }

/-- Gate-and-filter combinator shared by the advanced search filters:
apply `List.filter p` only when the gate is true. -/
def applyIf (b : Bool) (p : AdvChannel → Bool) (l : List AdvChannel) :
    List AdvChannel :=
  if b then l.filter p else l

/-- Text predicate of the advanced search (`q` filter): case-insensitive
substring match on name, alternative names, network or owners. -/
def advQPred (s : String) (c : AdvChannel) : Bool :=
  let searchLower := toLowerS s
  strIncludes (toLowerS c.name) searchLower ||
  c.alternativeNames.any (fun n => strIncludes (toLowerS n) searchLower) ||
  (match c.network with
   | some n => strIncludes (toLowerS n) searchLower
   | none => false) ||
  c.owners.any (fun o => strIncludes (toLowerS o) searchLower)

/-- `q` filter of `search.js`, gated on truthiness of the parameter. -/
def advQFilter (p : Option String) (l : List AdvChannel) :
    List AdvChannel :=
  applyIf (strTruthy p) (advQPred (p.getD "")) l

/-- Country predicate of the advanced search:
`c.country?.toLowerCase() === country.toLowerCase()`. -/
def advCountryPred (s : String) (c : AdvChannel) : Bool :=
  match c.country with
  | some k => toLowerS k == toLowerS s
  | none => false

/-- Country filter of `search.js` (lines 80-84), case-insensitive. -/
def advCountryFilter (p : Option String) (l : List AdvChannel) :
    List AdvChannel :=
  applyIf (strTruthy p) (advCountryPred (p.getD "")) l

/-- Category predicate of the advanced search:
`c.categories?.some(cat => cat.toLowerCase() === category.toLowerCase())`. -/
def advCategoryPred (s : String) (c : AdvChannel) : Bool :=
  c.categories.any (fun cat => toLowerS cat == toLowerS s)

/-- Category filter of `search.js`, gated on truthiness. -/
def advCategoryFilter (p : Option String) (l : List AdvChannel) :
    List AdvChannel :=
  applyIf (strTruthy p) (advCategoryPred (p.getD "")) l

/-- NSFW filter of `search.js`: applied whenever the parameter is present
(`nsfw !== undefined`, even when empty), comparing `isNsfw` with
`nsfw === 'true'`. -/
def advNsfwFilter (p : Option String) (l : List AdvChannel) :
    List AdvChannel :=
  applyIf p.isSome (fun c => c.isNsfw == (p.getD "" == "true")) l

/-- Has-streams filter: applied only when the parameter is the literal
string `true`, keeping channels with `streamCount > 0`. -/
def advHasStreamsFilter (p : Option String) (l : List AdvChannel) :
    List AdvChannel :=
  applyIf (p == some "true") (fun c => decide (0 < c.streamCount)) l

/-- Query parameters of the advanced `/search` endpoint. -/
structure AdvQuery where
  q : Option String
  country : Option String
  category : Option String
  nsfw : Option String
  hasStreams : Option String
  limit : Option String
  offset : Option String
deriving DecidableEq

/-- The filter stage of `search.js`: map, then the five gated filters in
source order. -/
def advFiltered (query : AdvQuery) (channels : List Channel)
    (streams : List Stream) (logos : List Logo) : List AdvChannel :=
  let results := channels.map (advEnrichChannel streams logos)
  advHasStreamsFilter query.hasStreams
    (advNsfwFilter query.nsfw
      (advCategoryFilter query.category
        (advCountryFilter query.country
          (advQFilter query.q results))))

/-- Stable insertion (descending by `streamCount`) modelling the JS
stable `sort((a, b) => b.streamCount - a.streamCount)`. -/
def insertDesc (x : AdvChannel) : List AdvChannel → List AdvChannel
  | [] => [x]
  | y :: ys =>
    if y.streamCount < x.streamCount then x :: y :: ys
    else y :: insertDesc x ys

/-- Stable sort by stream count, descending. -/
def sortByStreamsDesc : List AdvChannel → List AdvChannel
  | [] => []
  | x :: xs => insertDesc x (sortByStreamsDesc xs)

/-- Parsed `limit` of `search.js`: destructuring default `50`. -/
def advParsedLimit (q : AdvQuery) : Option Int :=
  match q.limit with
  | none => some 50
  | some s => parseIntJS s

/-- Parsed `offset` of `search.js`: destructuring default `0`. -/
def advParsedOffset (q : AdvQuery) : Option Int :=
  match q.offset with
  | none => some 0
  | some s => parseIntJS s

/-- Pagination envelope of the advanced search response. -/
structure Pagination where
  total : Nat
  limit : Option Int
  offset : Option Int
  hasMore : Bool
deriving DecidableEq

/-- Advanced search response body (the fields the claims are about). -/
structure AdvResp where
  success : Bool
  pagination : Pagination
  data : List AdvChannel
deriving DecidableEq

/-- The advanced `/search` handler: filter, sort by stream count, take
`total` before pagination, then `slice(offset, offset + limit)` and
compute `hasMore = offset + limit < total` (false on `NaN`). -/
def advHandler (query : AdvQuery) (channels : List Channel)
    (streams : List Stream) (logos : List Logo) : AdvResp :=
  let sorted := sortByStreamsDesc (advFiltered query channels streams logos)
  let total := sorted.length
  let pLim := advParsedLimit query
  let pOff := advParsedOffset query
  let final := jsSlice sorted (toIntOrZero pOff)
    (toIntOrZero (optAdd pOff pLim))
  { success := true
    pagination :=
      { total := total, limit := pLim, offset := pOff,
        hasMore := optLtNat (optAdd pOff pLim) total }
    data := final }

/-! ## `src/api/categories.js`: the `/categories` handler -/

/-- Channel reference pushed into a category's channel list
(`{id, name, country}`). -/
structure ChanRef where
  id : String
  name : String
  country : Option String
deriving DecidableEq

/-- The projection `channel => ({id, name, country})`. -/
def chanRef (c : Channel) : ChanRef :=
  ⟨c.id, c.name, c.country⟩

/-- Accumulated category entry (`{name, channelCount, channels}`). -/
structure CatAcc where
  name : String
  channelCount : Nat
  channels : List ChanRef
deriving DecidableEq

/-- One `categoryMap` update: create the entry on first sight, then
increment `channelCount` and push the channel reference. Insertion order
of the JS `Map` is modelled by list order. -/
def upsert (m : List CatAcc) (cat : String) (r : ChanRef) : List CatAcc :=
  match m with
  | [] => [⟨cat, 1, [r]⟩]
  | e :: rest =>
    if e.name == cat then
      ⟨e.name, e.channelCount + 1, e.channels ++ [r]⟩ :: rest
    else e :: upsert rest cat r

/-- Process one channel: upsert every category it lists. -/
def processChannel (m : List CatAcc) (c : Channel) : List CatAcc :=
  c.categories.foldl (fun acc cat => upsert acc cat (chanRef c)) m

/-- The `categoryMap` build of `categories.js` (lines 17-37). -/
def buildCategoryMap (channels : List Channel) : List CatAcc :=
  channels.foldl processChannel []

/-- Stable insertion, descending by `channelCount`, modelling the JS
stable `sort((a, b) => b.channelCount - a.channelCount)`. -/
def insertCatDesc (x : CatAcc) : List CatAcc → List CatAcc
  | [] => [x]
  | y :: ys =>
    if y.channelCount < x.channelCount then x :: y :: ys
    else y :: insertCatDesc x ys

/-- Stable sort of category entries by channel count, descending. -/
def sortCatsDesc : List CatAcc → List CatAcc
  | [] => []
  | x :: xs => insertCatDesc x (sortCatsDesc xs)

/-- JS `s.charAt(0).toUpperCase() + s.slice(1)`. -/
def capitalizeJS (s : String) : String :=
  match s.toList with
  | [] => ""
  | c :: rest => String.mk (c.toUpper :: rest)

/-- Output category entry (`{name, displayName, channelCount, topChannels}`). -/
structure CatOut where
  name : String
  displayName : String
  channelCount : Nat
  topChannels : List ChanRef
deriving DecidableEq

/-- Response body of `/categories`. -/
structure CategoriesResp where
  success : Bool
  count : Nat
  totalChannels : Nat
  data : List CatOut
deriving DecidableEq

/-- The `/categories` handler: build the category map, sort by channel
count descending, and project each entry with `topChannels` capped by
`channels.slice(0, 5)`. -/
def categoriesHandler (channels : List Channel) : CategoriesResp :=
  let categoriesData := (sortCatsDesc (buildCategoryMap channels)).map
    (fun cat => CatOut.mk cat.name (capitalizeJS cat.name)
      cat.channelCount (cat.channels.take 5))
  { success := true, count := categoriesData.length,
    totalChannels := channels.length, data := categoriesData }

/-- The channel references of a category, as the claim words them: the
channels listing that category, in dataset order, projected to
`{id, name, country}`. -/
def catRefs (cat : String) (channels : List Channel) : List ChanRef :=
  (channels.filter (fun c => c.categories.contains cat)).map chanRef

/-- Look up a category entry by name in the accumulated map. -/
def lookupCat (m : List CatAcc) (cat : String) : Option CatAcc :=
  m.find? (fun e => e.name == cat)

/-- Effect of one upsert on the entry of a single category. -/
def bumpOne (cat : String) (o : Option CatAcc) (r : ChanRef) :
    Option CatAcc :=
  match o with
  | none => some ⟨cat, 1, [r]⟩
  | some e => some ⟨e.name, e.channelCount + 1, e.channels ++ [r]⟩

/-- Iterated `bumpOne` over a list of channel references. -/
def bumpMany (cat : String) (o : Option CatAcc) (rs : List ChanRef) :
    Option CatAcc :=
  rs.foldl (bumpOne cat) o

/-! ## Claim-side reference definitions

These follow the specification's wording, to be compared with the
definitions embedded from the source. -/

/-- Case-insensitive equality of a stored (nullable) country code with a
query parameter, as the specification words the country filter. -/
def countryCI (oc : Option String) (p : String) : Bool :=
  match oc with
  | some c => toLowerS c == toLowerS p
  | none => false

/-- Logo choice as the specification words it: among the logos matching
the channel id, prefer one with no feed specified; otherwise take the
first match in dataset order; otherwise none. -/
def logoSpecChoice (logos : List Logo) (cid : String) : Option Logo :=
  let ms := logos.filter (logoMatches cid)
  if ms.any (fun l => jsFalsyStr l.feed) then
    ms.find? (fun l => jsFalsyStr l.feed)
  else ms.head?

/-! ## Concrete fixtures used in counterexamples and witnesses -/

/-- A channel whose stored country code is lower-case. -/
def exChannelLower : Channel :=
  { id := "example.us", name := "Example News", alt_names := ["Example"],
    country := some "us", categories := ["news"], network := none,
    owners := [], website := none, is_nsfw := false, launched := none,
    closed := none, replaced_by := none }

/-- A plain channel with an upper-case country code. -/
def exChannel : Channel :=
  { id := "bbc1.uk", name := "BBC One", alt_names := ["BBC 1"],
    country := some "UK", categories := ["general"], network := none,
    owners := [], website := none, is_nsfw := false, launched := none,
    closed := none, replaced_by := none }

/-- A second channel, sharing the `general` category with `exChannel`. -/
def exChannel2 : Channel :=
  { id := "itv.uk", name := "ITV", alt_names := [], country := some "UK",
    categories := ["general", "news"], network := none, owners := [],
    website := none, is_nsfw := false, launched := none, closed := none,
    replaced_by := none }

/-- A stream row that references `exChannel` through its feed key only. -/
def exFeedStream : Stream :=
  { channel := none, feed := some "bbc1.uk",
    url := "http://example.com/feed.m3u8", quality := some "720p",
    title := none, referrer := none, user_agent := none }

/-- A stream row that references `exChannel` through its channel key. -/
def exStream : Stream :=
  { channel := some "bbc1.uk", feed := none,
    url := "http://example.com/live.m3u8", quality := some "1080p",
    title := some "BBC One HD", referrer := none, user_agent := none }

/-- A feed-specific logo for `exChannel`. -/
def exFeedLogo : Logo :=
  { channel := some "bbc1.uk", feed := some "SD",
    url := "http://example.com/logo-sd.png", width := 100, height := 100,
    format := some "PNG", tags := [] }

/-- A logo for `exChannel` with no feed specified. -/
def exPlainLogo : Logo :=
  { channel := some "bbc1.uk", feed := none,
    url := "http://example.com/logo.png", width := 200, height := 200,
    format := some "PNG", tags := [] }

/-- A country row for the `UK` code. -/
def exCountry : Country :=
  { code := "UK", name := "United Kingdom", flag := "flag-uk",
    languages := ["eng"] }

/-! ## General lemmas about the embedded operations -/

theorem filter_swap (p q : α → Bool) (l : List α) :
    (l.filter p).filter q = (l.filter q).filter p := by
  induction l with
  | nil => rfl
  | cons a t ih => cases hp : p a <;> cases hq : q a <;>
      simp [List.filter_cons, hp, hq, ih]

theorem find?_filter_comm (p q : α → Bool) (l : List α) :
    (l.filter p).find? q = l.find? (fun a => p a && q a) := by
  induction l with
  | nil => rfl
  | cons a t ih => cases hp : p a <;> cases hq : q a <;>
      simp [List.filter_cons, List.find?_cons, hp, hq, ih]

theorem head?_filter_eq_find? (p : α → Bool) (l : List α) :
    (l.filter p).head? = l.find? p := by
  induction l with
  | nil => rfl
  | cons a t ih => cases hp : p a <;>
      simp [List.filter_cons, List.find?_cons, hp, ih]

theorem any_filter (p q : α → Bool) (l : List α) :
    (l.filter p).any q = l.any (fun a => p a && q a) := by
  induction l with
  | nil => rfl
  | cons a t ih => cases hp : p a <;> simp [List.filter_cons, hp, ih]

theorem clampIdx_le (len : Nat) (i : Int) : clampIdx len i ≤ len := by
  unfold clampIdx
  split
  · omega
  · exact min_le_right _ _

theorem clampIdx_zero (len : Nat) : clampIdx len 0 = 0 := by
  simp [clampIdx]

theorem jsSlice_fin_zero (l : List α) (s : Int) : jsSlice l s 0 = [] := by
  simp [jsSlice, clampIdx_zero]

theorem length_jsSlice_zero_start (l : List α) (e : Int) :
    (jsSlice l 0 e).length = clampIdx l.length e := by
  have h := clampIdx_le l.length e
  simp [jsSlice, clampIdx_zero, List.length_take]
  omega

theorem optAdd_none_right (x : Option Int) : optAdd x none = none := by
  cases x <;> rfl

theorem length_insertDesc (x : AdvChannel) (l : List AdvChannel) :
    (insertDesc x l).length = l.length + 1 := by
  induction l with
  | nil => rfl
  | cons y ys ih =>
      simp only [insertDesc]
      split <;> simp [ih]

theorem length_sortByStreamsDesc (l : List AdvChannel) :
    (sortByStreamsDesc l).length = l.length := by
  induction l with
  | nil => rfl
  | cons x xs ih => simp [sortByStreamsDesc, length_insertDesc, ih]

theorem mem_insertCatDesc (x e : CatAcc) (l : List CatAcc) :
    e ∈ insertCatDesc x l ↔ e = x ∨ e ∈ l := by
  induction l with
  | nil => simp [insertCatDesc]
  | cons y ys ih =>
      simp only [insertCatDesc]
      split
      · simp [or_comm, or_left_comm]
      · simp [ih]
        tauto

theorem mem_sortCatsDesc (e : CatAcc) (l : List CatAcc) :
    e ∈ sortCatsDesc l ↔ e ∈ l := by
  induction l with
  | nil => simp [sortCatsDesc]
  | cons x xs ih => simp [sortCatsDesc, mem_insertCatDesc, ih]

/-! ## Claim C1: country filtering -/

/-- Claim C1, counterexample: the country filter of the strict search
endpoint (and of the channels endpoint) is not case-insensitive equality
against the stored country field. A channel whose stored code is the
lower-case `us` is dropped for the query parameter `us`, although the two
are case-insensitively equal: the code compares
`channel.country === country.toUpperCase()`, which is exact on the
stored field. -/
theorem C1_counterexample :
    ¬ ∀ (l : List Channel) (p : String),
        strictCountryFilter (some p) l =
          l.filter (fun c => countryCI c.country p) := by
  intro h
  exact absurd (h [exChannelLower] "us") (by decide)

/-- Claim C1, amended: the country filters of the channels and strict
search endpoints retain exactly those channels whose stored country field
equals the query parameter converted to upper case, under exact
comparison (case-insensitive in the parameter, case-sensitive in the
stored field); the advanced search country filter is fully
case-insensitive. An empty parameter disables the filter. -/
theorem C1_country_filter_amended (p : String) (lC : List Channel)
    (lE : List EnrichedChannel) (lA : List AdvChannel) :
    (∀ c, c ∈ strictCountryFilter (some p) lC ↔
        c ∈ lC ∧ (p.isEmpty || c.country == some (toUpperS p)) = true) ∧
    (∀ e, e ∈ chCountryFilter (some p) lE ↔
        e ∈ lE ∧ (p.isEmpty || e.country == some (toUpperS p)) = true) ∧
    (∀ a, a ∈ advCountryFilter (some p) lA ↔
        a ∈ lA ∧ (p.isEmpty || countryCI a.country p) = true) := by
  have hCI : ∀ a : AdvChannel, advCountryPred p a = countryCI a.country p := by
    intro a
    cases h : a.country <;> simp [advCountryPred, countryCI, h]
  cases hp : p.isEmpty <;>
    simp [strictCountryFilter, chCountryFilter, advCountryFilter, applyIf,
      strTruthy, hp, List.mem_filter, hCI, Option.getD]

/-! ## Claim C2: the stream join -/

/-- Claim C2, counterexample: in the advanced search endpoint the
enrichment attaches only streams whose `channel` key equals the channel
id; a stream referencing the channel through its `feed` key alone is not
attached, contrary to the claim's "channel key OR feed key". -/
theorem C2_counterexample :
    ¬ ∀ (st : List Stream) (lo : List Logo) (c : Channel),
        (advEnrichChannel st lo c).streams =
          (st.filter (streamMatches c.id)).map mkAdvStreamOut := by
  intro h
  exact absurd (h [exFeedStream] [] exChannel) (by decide)

/-- Claim C2, amended: in the channels and strict search endpoints the
enrichment attaches exactly the streams whose channel or feed key equals
the channel id, as a sublist of the streams dataset (hence in their
original relative order); in the advanced search endpoint only streams
whose `channel` key equals the id are attached, likewise in dataset
order. -/
theorem C2_stream_join_amended (st : List Stream) (lo : List Logo)
    (co : List Country) (c : Channel) :
    (enrichChannel st lo co c).streams =
      (st.filter (streamMatches c.id)).map mkStreamOut ∧
    List.Sublist (st.filter (streamMatches c.id)) st ∧
    (advEnrichChannel st lo c).streams =
      (st.filter (fun s => s.channel == some c.id)).map mkAdvStreamOut ∧
    List.Sublist (st.filter (fun s => s.channel == some c.id)) st :=
  ⟨rfl, List.filter_sublist st, rfl, List.filter_sublist st⟩

/-! ## Claim C3: limit/offset parsing -/

/-- Claim C3, counterexample: a supplied non-numeric `limit` does not
behave like the default. On a one-channel dataset, `limit=abc` yields an
empty result (because `parseInt` gives `NaN` and `slice(0, NaN)` is
empty), while the missing-limit default returns the channel. -/
theorem C3_counterexample :
    ¬ ∀ (query : ChQuery) (s : String) (chs : List Channel),
        parseIntJS s = none →
        channelsHandler { query with limit := some s } chs [] [] [] =
          channelsHandler { query with limit := none } chs [] [] [] := by
  intro h
  exact absurd (h ⟨none, none, none, none⟩ "abc" [exChannel] (by decide))
    (by decide)

/-- Claim C3, amended: a missing `limit`/`offset` takes the documented
default (50 for the channels and advanced search endpoints, 20 for the
strict search endpoint, 0 for the offset) through the destructuring
default; but a supplied non-numeric value parses to `NaN`, which the
slice treats as 0, so the endpoint returns an empty data list (and
`hasMore` false on the advanced endpoint) instead of applying the
default. -/
theorem C3_limit_defaults_amended (query : ChQuery) (aq : AdvQuery)
    (sq : StrictQuery) (chs : List Channel) (st : List Stream)
    (lo : List Logo) (co : List Country) (s : String)
    (h : parseIntJS s = none) :
    (channelsHandler { query with limit := none } chs st lo co).data =
      jsSlice (chFiltered { query with limit := none } chs st lo co) 0 50 ∧
    strictParsedLimit { sq with limit := none } = some 20 ∧
    advParsedLimit { aq with limit := none } = some 50 ∧
    advParsedOffset { aq with offset := none } = some 0 ∧
    (channelsHandler { query with limit := some s } chs st lo co).data = [] ∧
    (searchHandler { sq with limit := some s } chs st lo co).data = [] ∧
    (advHandler { aq with limit := some s } chs st lo).data = [] ∧
    (advHandler { aq with limit := some s } chs st lo).pagination.hasMore
      = false := by
  obtain ⟨sqq, sqc, sqcat, sql⟩ := sq
  refine ⟨rfl, rfl, rfl, rfl, ?_, ?_, ?_, ?_⟩
  · simp [channelsHandler, chParsedLimit, h, toIntOrZero, jsSlice_fin_zero]
  · by_cases hq : strTruthy sqq
    · simp [searchHandler, hq, strictParsedLimit, h, toIntOrZero,
        jsSlice_fin_zero]
    · simp [searchHandler, hq, strictBadRequest]
  · simp [advHandler, advParsedLimit, h, optAdd_none_right, toIntOrZero,
      jsSlice_fin_zero]
  · simp [advHandler, advParsedLimit, h, optAdd_none_right, optLtNat]

/-- Claim C3 witness: the amended statement at a concrete non-numeric
limit string and one-channel dataset. -/
theorem C3_limit_defaults_amended_witness :
    parseIntJS "abc" = none ∧
    (channelsHandler ⟨none, none, none, some "abc"⟩ [exChannel] [] [] []).data
      = [] := by
  refine ⟨by decide, ?_⟩
  exact (C3_limit_defaults_amended ⟨none, none, none, none⟩
    ⟨none, none, none, none, none, none, none⟩ ⟨none, none, none, none⟩
    [exChannel] [] [] [] "abc" (by decide)).2.2.2.2.1

/-! ## Claim C4: the hasMore flag -/

/-- Claim C4: in the advanced search pagination metadata, for numeric
offset and limit, `hasMore` is true iff `offset + limit < total`, where
`total` (also reported in `pagination.total`) is the size of the filtered
result set before slicing. -/
theorem C4_hasMore (query : AdvQuery) (chs : List Channel)
    (st : List Stream) (lo : List Logo) (O L : Int)
    (hO : advParsedOffset query = some O)
    (hL : advParsedLimit query = some L) :
    (advHandler query chs st lo).pagination.total =
      (advFiltered query chs st lo).length ∧
    ((advHandler query chs st lo).pagination.hasMore = true ↔
      O + L < ((advFiltered query chs st lo).length : Int)) := by
  constructor
  · simp [advHandler, length_sortByStreamsDesc]
  · simp [advHandler, hO, hL, optAdd, optLtNat, length_sortByStreamsDesc]

/-- Claim C4 witness: a query with `offset=2`, `limit=10` on a
one-channel dataset. -/
theorem C4_hasMore_witness :
    advParsedOffset ⟨none, none, none, none, none, some "10", some "2"⟩
      = some 2 ∧
    advParsedLimit ⟨none, none, none, none, none, some "10", some "2"⟩
      = some 10 ∧
    ((advHandler ⟨none, none, none, none, none, some "10", some "2"⟩
        [exChannel] [] []).pagination.hasMore = true ↔
      (2 : Int) + 10 <
        ((advFiltered ⟨none, none, none, none, none, some "10", some "2"⟩
          [exChannel] [] []).length : Int)) := by
  refine ⟨by decide, by decide, ?_⟩
  exact (C4_hasMore _ [exChannel] [] [] 2 10 (by decide) (by decide)).2

/-! ## Claim C5: logo selection -/

/-- Claim C5: logo selection picks a logo with no feed whenever one
matching logo has no feed; only if every matching logo is feed-specific
is the first matching logo in dataset order chosen; if no logo matches,
the result is none (hence the `logo` field is null). The code's
`find(noFeed) || find(match)` equals the specification's tie-break over
the filtered matches, and it yields none exactly when no logo matches. -/
theorem C5_logo_selection (logos : List Logo) (cid : String) :
    findLogo logos cid = logoSpecChoice logos cid ∧
    (findLogo logos cid = none ↔
      logos.all (fun l => !logoMatches cid l) = true) := by
  have hfind : (logos.filter (logoMatches cid)).find?
        (fun l => jsFalsyStr l.feed)
      = logos.find? (fun l => logoMatches cid l && jsFalsyStr l.feed) :=
    find?_filter_comm _ _ _
  have hany : (logos.filter (logoMatches cid)).any
        (fun l => jsFalsyStr l.feed)
      = logos.any (fun l => logoMatches cid l && jsFalsyStr l.feed) :=
    any_filter _ _ _
  cases hf : logos.find? (fun l => logoMatches cid l && jsFalsyStr l.feed)
    with
  | some l =>
      have hmem := List.mem_of_find?_eq_some hf
      have hpl : (logoMatches cid l && jsFalsyStr l.feed) = true := by
        have := List.find?_some hf
        simpa using this
      have hm : logoMatches cid l = true := by
        have h2 := hpl
        simp at h2
        exact h2.1
      have hany2 : logos.any
          (fun l => logoMatches cid l && jsFalsyStr l.feed) = true :=
        List.any_eq_true.mpr ⟨l, hmem, hpl⟩
      refine ⟨?_, ?_⟩
      · unfold findLogo logoSpecChoice
        simp [hf, hany, hany2, hfind]
      · unfold findLogo
        rw [hf]
        apply iff_of_false
        · simp
        · intro hall2
          rw [List.all_eq_true] at hall2
          have := hall2 l hmem
          simp [hm] at this
  | none =>
      have hall := List.find?_eq_none.mp hf
      have hany2 : logos.any
          (fun l => logoMatches cid l && jsFalsyStr l.feed) = false :=
        List.any_eq_false.mpr hall
      refine ⟨?_, ?_⟩
      · unfold findLogo logoSpecChoice
        simp [hf, hany, hany2, head?_filter_eq_find?]
      · unfold findLogo
        rw [hf]
        rw [List.find?_eq_none, List.all_eq_true]
        constructor
        · intro h a ha
          simp [h a ha]
        · intro h a ha
          have := h a ha
          simp at this
          simp [this]

/-! ## Claim C6: the filters are conjunctive and commute -/

/-- Claim C6: for every channel collection and every pair of filter
predicates among text search, country, category and NSFW of the advanced
search endpoint, applying the two (gated) filters in either order yields
the same result list. -/
theorem C6_filters_commute (qp cp catp np : Option String)
    (l : List AdvChannel) :
    advQFilter qp (advCountryFilter cp l)
      = advCountryFilter cp (advQFilter qp l) ∧
    advQFilter qp (advCategoryFilter catp l)
      = advCategoryFilter catp (advQFilter qp l) ∧
    advQFilter qp (advNsfwFilter np l)
      = advNsfwFilter np (advQFilter qp l) ∧
    advCountryFilter cp (advCategoryFilter catp l)
      = advCategoryFilter catp (advCountryFilter cp l) ∧
    advCountryFilter cp (advNsfwFilter np l)
      = advNsfwFilter np (advCountryFilter cp l) ∧
    advCategoryFilter catp (advNsfwFilter np l)
      = advNsfwFilter np (advCategoryFilter catp l) := by
  have key : ∀ (b1 b2 : Bool) (p1 p2 : AdvChannel → Bool)
      (m : List AdvChannel),
      applyIf b1 p1 (applyIf b2 p2 m) = applyIf b2 p2 (applyIf b1 p1 m) := by
    intro b1 b2 p1 p2 m
    cases b1 <;> cases b2 <;> simp [applyIf, filter_swap]
    exact List.filter_congr (fun a _ => by rw [Bool.and_comm])
  simp only [advQFilter, advCountryFilter, advCategoryFilter, advNsfwFilter]
  exact ⟨key _ _ _ _ _, key _ _ _ _ _, key _ _ _ _ _, key _ _ _ _ _,
    key _ _ _ _ _, key _ _ _ _ _⟩

/-! ## Claim C7: the strict search 400 response -/

/-- Claim C7, counterexample: an absent `q` is not the only condition
producing HTTP 400 on the strict search endpoint. The check is JS
truthiness (`if (!q)`), so a supplied but empty `q` also produces 400. -/
theorem C7_counterexample :
    ¬ ∀ (query : StrictQuery) (chs : List Channel) (st : List Stream)
        (lo : List Logo) (co : List Country),
        (searchHandler query chs st lo co).status = 400 → query.q = none := by
  intro h
  exact absurd (h ⟨some "", none, none, none⟩ [] [] [] [] (by decide))
    (by decide)

/-- Claim C7, amended: the strict search endpoint returns HTTP 400 with
body `{success: false, error: "Search query (q) is required"}` exactly
when `q` is falsy — absent OR empty — and that falsy-`q` response is a
fixed constant, independent of the four datasets (no data is consulted);
no other condition produces HTTP 400. -/
theorem C7_bad_request_amended (query : StrictQuery) (chs : List Channel)
    (st : List Stream) (lo : List Logo) (co : List Country) :
    ((searchHandler query chs st lo co).status = 400 ↔
      strTruthy query.q = false) ∧
    searchHandler query chs st lo co =
      (if strTruthy query.q then searchHandler query chs st lo co
       else strictBadRequest) := by
  cases hq : strTruthy query.q <;>
    simp [searchHandler, hq, strictBadRequest]

/-! ## Claim C8: enrichment is total -/

/-- Claim C8: enrichment never fails — when no stream row matches the
channel id the streams list is empty, when no logo matches the logo field
is null, and when the country code is absent from the countries
collection the country_name and country_flag fields are null. -/
theorem C8_enrichment_total (st : List Stream) (lo : List Logo)
    (co : List Country) (c : Channel)
    (hs : ∀ s ∈ st, streamMatches c.id s = false)
    (hl : ∀ l ∈ lo, logoMatches c.id l = false)
    (hc : ∀ k ∈ co, (c.country == some k.code) = false) :
    (enrichChannel st lo co c).streams = [] ∧
    (enrichChannel st lo co c).logo = none ∧
    (enrichChannel st lo co c).country_name = none ∧
    (enrichChannel st lo co c).country_flag = none := by
  have h1 : st.filter (streamMatches c.id) = [] :=
    List.filter_eq_nil_iff.mpr (by intro a ha; simp [hs a ha])
  have h2 : findLogo lo c.id = none := by
    unfold findLogo
    have hfa : lo.find? (fun l => logoMatches c.id l && jsFalsyStr l.feed)
        = none :=
      List.find?_eq_none.mpr (by intro a ha; simp [hl a ha])
    have hfb : lo.find? (logoMatches c.id) = none :=
      List.find?_eq_none.mpr (by intro a ha; simp [hl a ha])
    simp [hfa, hfb]
  have h3 : co.find? (fun k => c.country == some k.code) = none :=
    List.find?_eq_none.mpr (by intro a ha; simp [hc a ha])
  simp [enrichChannel, h1, h2, h3]

/-- Claim C8 witness: empty related datasets for a concrete channel. -/
theorem C8_enrichment_total_witness :
    (∀ s ∈ ([] : List Stream), streamMatches exChannel.id s = false) ∧
    (enrichChannel [] [] [] exChannel).streams = [] ∧
    (enrichChannel [] [] [] exChannel).logo = none ∧
    (enrichChannel [] [] [] exChannel).country_name = none ∧
    (enrichChannel [] [] [] exChannel).country_flag = none :=
  ⟨by decide,
   C8_enrichment_total [] [] [] exChannel (by decide) (by decide) (by decide)⟩

/-! ## Claim C9: the categories endpoint

The proof tracks each category's entry through the fold that builds the
JS `Map`, via `lookupCat`. -/

theorem lookupCat_upsert_same (m : List CatAcc) (cat : String)
    (r : ChanRef) :
    lookupCat (upsert m cat r) cat = bumpOne cat (lookupCat m cat) r := by
  induction m with
  | nil => simp [upsert, lookupCat, bumpOne]
  | cons e rest ih =>
      by_cases he : e.name = cat
      · simp [upsert, lookupCat, bumpOne, List.find?_cons, he]
      · simpa [upsert, lookupCat, List.find?_cons, he] using ih

theorem lookupCat_upsert_ne (m : List CatAcc) (cat cat0 : String)
    (r : ChanRef) (h : cat ≠ cat0) :
    lookupCat (upsert m cat r) cat0 = lookupCat m cat0 := by
  induction m with
  | nil => simp [upsert, lookupCat, List.find?_cons, h]
  | cons e rest ih =>
      by_cases he : e.name = cat
      · simp [upsert, lookupCat, List.find?_cons, he, h]
      · by_cases he0 : e.name = cat0
        · simp [upsert, lookupCat, List.find?_cons, he, he0, Ne.symm h]
        · simpa [upsert, lookupCat, List.find?_cons, he, he0] using ih

theorem lookupCat_foldl_upsert (r : ChanRef) (cats : List String) :
    cats.Nodup → ∀ (m : List CatAcc) (cat0 : String),
      lookupCat (cats.foldl (fun acc ct => upsert acc ct r) m) cat0 =
        (if cat0 ∈ cats then bumpOne cat0 (lookupCat m cat0) r
         else lookupCat m cat0) := by
  induction cats with
  | nil => intro _ m cat0; simp
  | cons c cs ih =>
      intro hnd m cat0
      obtain ⟨hc, hcs⟩ := List.nodup_cons.mp hnd
      rw [List.foldl_cons, ih hcs]
      by_cases h0 : cat0 = c
      · subst h0
        simp [hc, lookupCat_upsert_same]
      · rw [lookupCat_upsert_ne _ _ _ _ (fun hh => h0 hh.symm)]
        simp [List.mem_cons, h0]

theorem lookupCat_build (chs : List Channel)
    (h : ∀ c ∈ chs, c.categories.Nodup) (cat : String) :
    lookupCat (buildCategoryMap chs) cat =
      bumpMany cat none (catRefs cat chs) := by
  have gen : ∀ (m : List CatAcc),
      lookupCat (chs.foldl processChannel m) cat =
        bumpMany cat (lookupCat m cat) (catRefs cat chs) := by
    induction chs with
    | nil => intro m; rfl
    | cons c rest ih =>
        have hrest : ∀ x ∈ rest, x.categories.Nodup :=
          fun x hx => h x (List.mem_cons_of_mem _ hx)
        have ihr := ih hrest
        intro m
        rw [List.foldl_cons, ihr]
        have hproc : lookupCat (processChannel m c) cat =
            (if cat ∈ c.categories
             then bumpOne cat (lookupCat m cat) (chanRef c)
             else lookupCat m cat) :=
          lookupCat_foldl_upsert (chanRef c) c.categories
            (h c (List.mem_cons_self _ _)) m cat
        rw [hproc]
        by_cases hcin : cat ∈ c.categories
        · have hcontains : c.categories.contains cat = true :=
            List.elem_iff.mpr hcin
          simp [catRefs, List.filter_cons, hcontains, hcin, bumpMany]
        · have hcontains : c.categories.contains cat = false := by
            simp [List.elem_iff, hcin]
          simp [catRefs, List.filter_cons, hcontains, hcin]
  have h0 : lookupCat [] cat = none := rfl
  have := gen []
  rwa [h0] at this

theorem bumpMany_some (cat : String) (e : CatAcc) (rs : List ChanRef) :
    bumpMany cat (some e) rs =
      some ⟨e.name, e.channelCount + rs.length, e.channels ++ rs⟩ := by
  induction rs generalizing e with
  | nil => simp [bumpMany]
  | cons r rs ih =>
      show bumpMany cat (bumpOne cat (some e) r) rs = _
      rw [show bumpOne cat (some e) r
        = some ⟨e.name, e.channelCount + 1, e.channels ++ [r]⟩ from rfl]
      rw [ih]
      simp
      omega

theorem bumpMany_none (cat : String) (rs : List ChanRef) (h : rs ≠ []) :
    bumpMany cat none rs = some ⟨cat, rs.length, rs⟩ := by
  cases rs with
  | nil => exact absurd rfl h
  | cons r rs =>
      show bumpMany cat (some ⟨cat, 1, [r]⟩) rs = _
      rw [bumpMany_some]
      simp [Nat.add_comm]

theorem names_upsert (m : List CatAcc) (cat : String) (r : ChanRef) :
    (upsert m cat r).map CatAcc.name =
      (if cat ∈ m.map CatAcc.name then m.map CatAcc.name
       else m.map CatAcc.name ++ [cat]) := by
  induction m with
  | nil => simp [upsert]
  | cons e rest ih =>
      by_cases he : e.name = cat
      · simp [upsert, he]
      · have he' : ¬ cat = e.name := fun hh => he hh.symm
        by_cases hm : cat ∈ rest.map CatAcc.name
        · simp [upsert, he, he', ih, hm]
        · simp [upsert, he, he', ih, hm]

theorem names_nodup_upsert (m : List CatAcc) (cat : String) (r : ChanRef)
    (h : (m.map CatAcc.name).Nodup) :
    ((upsert m cat r).map CatAcc.name).Nodup := by
  rw [names_upsert]
  by_cases hm : cat ∈ m.map CatAcc.name
  · simpa [hm] using h
  · simp [hm, List.nodup_append, h]

theorem names_nodup_build (chs : List Channel) :
    ((buildCategoryMap chs).map CatAcc.name).Nodup := by
  have gen : ∀ (cats : List String) (r : ChanRef) (m : List CatAcc),
      (m.map CatAcc.name).Nodup →
      ((cats.foldl (fun acc ct => upsert acc ct r) m).map CatAcc.name).Nodup := by
    intro cats r
    induction cats with
    | nil => intro m h; exact h
    | cons c cs ih => intro m h; exact ih _ (names_nodup_upsert _ _ _ h)
  have gen2 : ∀ (m : List CatAcc), (m.map CatAcc.name).Nodup →
      ((chs.foldl processChannel m).map CatAcc.name).Nodup := by
    induction chs with
    | nil => intro m h; exact h
    | cons c rest ih => intro m h; exact ih _ (gen _ _ _ h)
  exact gen2 [] (by simp)

theorem lookupCat_of_mem (m : List CatAcc) (e : CatAcc)
    (hnd : (m.map CatAcc.name).Nodup) (he : e ∈ m) :
    lookupCat m e.name = some e := by
  induction m with
  | nil => cases he
  | cons x rest ih =>
      rw [List.map_cons, List.nodup_cons] at hnd
      obtain ⟨hx, hrest⟩ := hnd
      rcases List.mem_cons.mp he with h1 | h1
      · subst h1
        simp [lookupCat, List.find?_cons]
      · have hne : x.name ≠ e.name := by
          intro hh
          exact hx (hh ▸ List.mem_map_of_mem CatAcc.name h1)
        simpa [lookupCat, List.find?_cons, hne] using ih hrest h1

/-- Claim C9: every category entry of the categories endpoint reports
`channelCount` equal to the number of channels listing that category
(assuming, per the data model, that no channel lists a category twice),
while `topChannels` is the first five — that is, the first
min(channelCount, 5) — such channels in dataset order. The shown channels
are capped at 5 but the count is not. -/
theorem C9_categories (channels : List Channel)
    (h : ∀ c ∈ channels, c.categories.Nodup) (entry : CatOut)
    (hentry : entry ∈ (categoriesHandler channels).data) :
    entry.channelCount =
      (channels.filter
        (fun c => c.categories.contains entry.name)).length ∧
    entry.topChannels = (catRefs entry.name channels).take 5 := by
  simp only [categoriesHandler, List.mem_map] at hentry
  obtain ⟨e, he, rfl⟩ := hentry
  rw [mem_sortCatsDesc] at he
  have hlook := lookupCat_of_mem _ _ (names_nodup_build channels) he
  have hfold := lookupCat_build channels h e.name
  rw [hlook] at hfold
  by_cases hrefs : catRefs e.name channels = []
  · rw [hrefs] at hfold
    simp [bumpMany] at hfold
  · rw [bumpMany_none _ _ hrefs] at hfold
    have hE : e = ⟨e.name, (catRefs e.name channels).length,
        catRefs e.name channels⟩ := Option.some.inj hfold
    constructor
    · have hcount := congrArg CatAcc.channelCount hE
      simpa [catRefs] using hcount
    · have hchan := congrArg CatAcc.channels hE
      simp only []
      rw [hchan]

/-- Claim C9 witness: a two-channel dataset where the `news` category is
listed by one channel. -/
theorem C9_categories_witness :
    (∀ c ∈ [exChannel, exChannel2], c.categories.Nodup) ∧
    CatOut.mk "news" "News" 1 [⟨"itv.uk", "ITV", some "UK"⟩]
      ∈ (categoriesHandler [exChannel, exChannel2]).data ∧
    ((CatOut.mk "news" "News" 1
        [⟨"itv.uk", "ITV", some "UK"⟩]).channelCount =
      ([exChannel, exChannel2].filter
        (fun c => c.categories.contains "news")).length ∧
     (CatOut.mk "news" "News" 1
        [⟨"itv.uk", "ITV", some "UK"⟩]).topChannels =
      (catRefs "news" [exChannel, exChannel2]).take 5) :=
  ⟨by decide, by decide,
   C9_categories [exChannel, exChannel2] (by decide) _ (by decide)⟩

/-! ## Claim C10: total semantics of the two search variants -/

theorem clampIdx_le_of_nonneg (len : Nat) (L : Int) (h : 0 ≤ L) :
    ((clampIdx len L : Nat) : Int) ≤ L := by
  unfold clampIdx
  split <;> omega

/-- Claim C10: on the strict search endpoint the reported `total` equals
the number of results actually returned after truncation to the limit
(and, for a non-negative numeric limit, never exceeds the limit even when
more channels match), while on the advanced endpoint `pagination.total`
is the pre-slice filtered count. -/
theorem C10_totals (query : StrictQuery) (aq : AdvQuery)
    (chs chs2 : List Channel) (st st2 : List Stream) (lo lo2 : List Logo)
    (co : List Country) (L : Int)
    (hL : strictParsedLimit query = some L) (hpos : 0 ≤ L) :
    (searchHandler query chs st lo co).total =
      (searchHandler query chs st lo co).data.length ∧
    ((searchHandler query chs st lo co).total : Int) ≤ L ∧
    (advHandler aq chs2 st2 lo2).pagination.total =
      (advFiltered aq chs2 st2 lo2).length := by
  refine ⟨?_, ?_, ?_⟩
  · cases hq : strTruthy query.q <;>
      simp [searchHandler, hq, strictBadRequest]
  · cases hq : strTruthy query.q
    · simp [searchHandler, hq, strictBadRequest]
      exact hpos
    · simp [searchHandler, hq, hL, toIntOrZero,
        length_jsSlice_zero_start]
      exact clampIdx_le_of_nonneg _ _ hpos
  · simp [advHandler, length_sortByStreamsDesc]

/-- Claim C10 witness: `q=b`, `limit=1` on a two-channel dataset where
two channels match the text search. -/
theorem C10_totals_witness :
    strictParsedLimit ⟨some "b", none, none, some "1"⟩ = some 1 ∧
    (searchHandler ⟨some "b", none, none, some "1"⟩
        [exChannel, exChannel2] [] [] []).total =
      (searchHandler ⟨some "b", none, none, some "1"⟩
        [exChannel, exChannel2] [] [] []).data.length ∧
    ((searchHandler ⟨some "b", none, none, some "1"⟩
        [exChannel, exChannel2] [] [] []).total : Int) ≤ 1 := by
  have hmain := C10_totals ⟨some "b", none, none, some "1"⟩
    ⟨none, none, none, none, none, none, none⟩ [exChannel, exChannel2] []
    [] [] [] [] [] 1 (by decide) (by decide)
  exact ⟨by decide, hmain.1, hmain.2.1⟩

end IPTV
